import Mathlib

/-!
Verification development for the ARER audio/visual neural codec repository.

The development shallowly embeds the forward/inference data path of
`models/autoencoder/modules/encoder.py`, the statistics collector of
`codecStatistic.py`, and the dataset loader of `codecTest.py`.

Tensors are modelled as nested lists of rationals: a 3-axis tensor
(batch, channel, time) is a `List` of channel/time matrices, a 4-axis image
tensor adds one more level.  Learned weights are opaque rational-valued
functions.  Fallible Python behaviour (raised exceptions) is modelled with
`Except PyError`.  Components of the repository that are not part of the
provided sources (the causal/non-causal convolution primitives, the residual
units, `check_mode`, the AudioDec generator wrapper, and the external
libraries sklearn/numpy/torch) are modelled from the specification's stated
contracts; each such definition says so in its doc comment.
-/

/-- Python-level runtime errors that the modelled code can raise. -/
inductive PyError where
  | typeError
  | attributeError
  | nameError
  | assertionError
  | modeMismatch
deriving DecidableEq

/-- One time axis of rational samples. -/
abbrev QVec := List ℚ

/-- A 2-axis tensor: channels (or rows) of time axes (or columns). -/
abbrev QMat := List QVec

/-- A 3-axis tensor (batch, channel, time). -/
abbrev Ten3 := List QMat

/-- A 4-axis image tensor (batch, channel, height, width). -/
abbrev Ten4 := List Ten3

/-- Shape predicate: `m` is a `C × T` matrix. -/
abbrev IsQMat (C T : ℕ) (m : QMat) : Prop :=
  m.length = C ∧ ∀ r ∈ m, r.length = T

/-- Shape predicate: `x` is a `(B, C, T)` tensor. -/
abbrev IsTen3 (B C T : ℕ) (x : Ten3) : Prop :=
  x.length = B ∧ ∀ m ∈ x, IsQMat C T m

/-- Shape predicate: `x` is a `(B, C, H, W)` tensor. -/
abbrev IsTen4 (B C H W : ℕ) (x : Ten4) : Prop :=
  x.length = B ∧ ∀ t ∈ x, IsTen3 C H W t

/-- Time length of a channel/time matrix (length of its first channel). -/
def timeLen (m : QMat) : ℕ := (m.headD []).length

/-- The construction-time execution mode of the convolutional components
(`mode='causal'` or `mode='noncausal'` in the source). -/
inductive Mode where
  | causal
  | noncausal
deriving DecidableEq

/-- Modelled from the spec: `models/utils.check_mode` (not under `src/`)
admits only streaming-capable (causal) components and signals a
mode-mismatch error otherwise (spec §7, "Mode-mismatch errors"). -/
def checkMode (m : Mode) : Except PyError Unit :=
  match m with
  | .causal => .ok ()
  | .noncausal => .error .modeMismatch

/-- Read position `idx` of a time axis that has been padded on the left with
`pl` zeros; reads past the right end also give the zero padding value. -/
def padAt (r : QVec) (pl idx : ℕ) : ℚ :=
  if idx < pl then 0 else r.getD (idx - pl) 0

/-- Modelled from the spec: the 1-D convolution primitives `CausalConv1d` /
`NonCausalConv1d` of `layers/conv_layer.py` are not under `src/`; the spec
(§2) treats them as external and assumed correct, with the §4.2 shape
contract: a stride-`s` layer maps time length `T` to exactly `T / s` on
stride-divisible input.  The causal variant left-pads by `k - 1` so that
each output depends only on past/current input (glossary, "Causal"); the
non-causal variant is batch-mode with the same `T / s` length contract.
`infStep` is the streaming one-chunk step of the causal variant, opaque
here.  Dilation is 1 for every convolution constructed in `encoder.py`. -/
structure Conv1dM where
  mode : Mode
  inC : ℕ
  outC : ℕ
  k : ℕ
  s : ℕ
  w : ℕ → ℕ → ℕ → ℚ
  b : ℕ → ℚ
  infStep : QMat → QMat

/-- Output time length of a left-padded (causal) stride-`s` convolution:
`⌈T / s⌉`, i.e. `(T - 1) / s + 1` for nonempty input. -/
def causalLen (s T : ℕ) : ℕ := if T = 0 then 0 else (T - 1) / s + 1

/-- Output time length of a mode-`m` stride-`s` convolution layer. -/
def outTime (m : Mode) (s T : ℕ) : ℕ :=
  match m with
  | .causal => causalLen s T
  | .noncausal => T / s

/-- Left padding used by a mode-`m` convolution with kernel size `k`. -/
def convPadLeft (m : Mode) (k : ℕ) : ℕ :=
  match m with
  | .causal => k - 1
  | .noncausal => (k - 1) / 2

/-- Value of output channel `o` at output time `t` of the convolution `c`. -/
def convAt (c : Conv1dM) (x : QMat) (o t : ℕ) : ℚ :=
  c.b o + ((List.range c.inC).map (fun i =>
    ((List.range c.k).map (fun j =>
      c.w o i j * padAt (x.getD i []) (convPadLeft c.mode c.k) (t * c.s + j))).sum)).sum

/-- Apply the convolution to one channel/time matrix. -/
def Conv1dM.apply (c : Conv1dM) (x : QMat) : QMat :=
  (List.range c.outC).map (fun o =>
    (List.range (outTime c.mode c.s (timeLen x))).map (fun t => convAt c x o t))

/-- Apply the convolution to a batched `(B, C, T)` tensor. -/
def Conv1dM.applyB (c : Conv1dM) (x : Ten3) : Ten3 := x.map c.apply

/-- Modelled from the spec: the residual units of
`models/autoencoder/modules/residual_unit.py` are not under `src/`; per spec
§4.1 a unit maps a `(C, T)` latent to an output of identical shape, and the
causal variant additionally has a streaming step `infStep`.  `f` is the
one-shot forward transform with its shape contract `shape_f`. -/
structure ResidualUnit where
  f : QMat → QMat
  infStep : QMat → QMat
  shape_f : ∀ C T x, IsQMat C T x → IsQMat C T (f x)

/-- `EncoderBlock` from `encoder.py` lines 93-141: a list of residual units
followed by one strided downsampling convolution. -/
structure EncoderBlock where
  mode : Mode
  res_units : List ResidualUnit
  conv : Conv1dM

/-- `EncoderBlock.__init__`: one residual unit per configured dilation
(`mkRU d` is the unit constructed with dilation `d`), then a convolution
with kernel size `2 * stride` and the given stride. -/
def EncoderBlock.init (inC outC stride : ℕ) (dilations : List ℕ) (mode : Mode)
    (mkRU : ℕ → ResidualUnit) (w : ℕ → ℕ → ℕ → ℚ) (b : ℕ → ℚ)
    (cInf : QMat → QMat) : EncoderBlock :=
  ⟨mode, dilations.map mkRU, ⟨mode, inC, outC, 2 * stride, stride, w, b, cInf⟩⟩

/-- `EncoderBlock.forward` on one sample: fold the residual units in order,
then the strided convolution. -/
def EncoderBlock.forward1 (blk : EncoderBlock) (x : QMat) : QMat :=
  blk.conv.apply (blk.res_units.foldl (fun a u => u.f a) x)

/-- `EncoderBlock.forward` on a batched tensor. -/
def EncoderBlock.forward (blk : EncoderBlock) (x : Ten3) : Ten3 :=
  x.map blk.forward1

/-- `EncoderBlock.inference` (lines 136-141): first `check_mode`, then the
streaming steps of each residual unit and of the convolution. -/
def EncoderBlock.inference (blk : EncoderBlock) (x : Ten3) : Except PyError Ten3 :=
  (checkMode blk.mode).bind (fun _ =>
    .ok (x.map (fun m => blk.conv.infStep (blk.res_units.foldl (fun a u => u.infStep a) m))))

/-- A plain `torch.nn.Conv1d` with explicit symmetric padding `p`, as used in
the `encode_RIR` stack (external torch semantics, `bias=False`). -/
structure TorchConv1d where
  inC : ℕ
  outC : ℕ
  k : ℕ
  s : ℕ
  p : ℕ
  w : ℕ → ℕ → ℕ → ℚ

/-- Output length of `torch.nn.Conv1d`: `(T + 2p - k) / s + 1` when the
padded input covers the kernel, else 0. -/
def torchOutLen (k s p T : ℕ) : ℕ :=
  if T + 2 * p < k then 0 else (T + 2 * p - k) / s + 1

/-- Apply a `torch.nn.Conv1d` to one channel/time matrix. -/
def TorchConv1d.apply (c : TorchConv1d) (x : QMat) : QMat :=
  (List.range c.outC).map (fun o =>
    (List.range (torchOutLen c.k c.s c.p (timeLen x))).map (fun t =>
      ((List.range c.inC).map (fun i =>
        ((List.range c.k).map (fun j =>
          c.w o i j * padAt (x.getD i []) c.p (t * c.s + j))).sum)).sum))

/-- `torch.nn.LeakyReLU(0.2)`: elementwise, negative values scaled by 1/5. -/
def leakyRelu02 (x : QMat) : QMat :=
  x.map (fun r => r.map (fun v => if v < 0 then v / 5 else v))

/-- `torch.nn.BatchNorm1d` in evaluation mode: a fixed per-channel affine map
(the running statistics, weight, bias and epsilon fold into `a c`, `b c`). -/
structure BatchNorm1dEval where
  a : ℕ → ℚ
  b : ℕ → ℚ

/-- Apply evaluation-mode batch normalization per channel. -/
def BatchNorm1dEval.apply (n : BatchNorm1dEval) (x : QMat) : QMat :=
  x.enum.map (fun p => p.2.map (fun v => n.a p.1 * v + n.b p.1))

/-- The `encode_RIR` sequential stack of `Encoder.__init__`
(lines 192-203): Conv1d, LeakyReLU, Conv1d, BatchNorm1d, LeakyReLU,
Conv1d, BatchNorm1d, LeakyReLU. -/
structure EncodeRIR where
  c1 : TorchConv1d
  c2 : TorchConv1d
  c3 : TorchConv1d
  n2 : BatchNorm1dEval
  n3 : BatchNorm1dEval

/-- The `encode_RIR` stack with the hard-coded hyperparameters of the source:
`Conv1d(input_channels, 16·ec, 14401, 225, 7200)`,
`Conv1d(16·ec, 24·ec, 41, 2, 20)`, `Conv1d(24·ec, 32·ec, 41, 2, 20)`,
all `bias=False`, where `ec` is `encode_channels`. -/
def EncodeRIR.init (inputC ec : ℕ) (w1 w2 w3 : ℕ → ℕ → ℕ → ℚ)
    (a2 b2 a3 b3 : ℕ → ℚ) : EncodeRIR :=
  ⟨⟨inputC, 16 * ec, 14401, 225, 7200, w1⟩,
   ⟨16 * ec, 24 * ec, 41, 2, 20, w2⟩,
   ⟨24 * ec, 32 * ec, 41, 2, 20, w3⟩,
   ⟨a2, b2⟩, ⟨a3, b3⟩⟩

/-- Apply the `encode_RIR` stack to one sample, in the source's layer order. -/
def EncodeRIR.apply (e : EncodeRIR) (x : QMat) : QMat :=
  leakyRelu02 (e.n3.apply (e.c3.apply (leakyRelu02 (e.n2.apply (e.c2.apply
    (leakyRelu02 (e.c1.apply x)))))))

/-- Apply the `encode_RIR` stack to a batched tensor. -/
def EncodeRIR.applyB (e : EncodeRIR) (x : Ten3) : Ten3 := x.map e.apply

/-- `VISURAL_RES_NET1` / `VISURAL_RES_NET2` from `encoder.py` lines 25-64:
the two classes are textually identical, so one structure models both; the
encoder owns two independently-weighted instances.  `backbone` is the frozen
pretrained residual image backbone (external torchvision, spec §4.3: it
yields a flat 512-wide feature per image, i.e. shape `(B, 512, 1, 1)`, for
any input meeting its minimum size); `w`, `b` are the `Linear(512, 512*1)`
predictor weights. -/
structure VISURAL_RES_NET where
  backbone : Ten4 → Ten4
  w : ℕ → ℕ → ℚ
  b : ℕ → ℚ

/-- `.squeeze(-1).squeeze(-1)` on a `(B, C, 1, 1)` tensor: keep the single
height/width entry of every channel. -/
def squeezeLast2 (x : Ten4) : QMat :=
  x.map (fun t => t.map (fun ch => (ch.headD []).headD 0))

/-- The `Linear(512, 512*1)` predictor applied to one feature vector. -/
def linear512 (w : ℕ → ℕ → ℚ) (b : ℕ → ℚ) (v : QVec) : QVec :=
  (List.range 512).map (fun o => b o + ((List.range 512).map (fun i => w o i * v.getD i 0)).sum)

/-- `pred.reshape(B, 512, int(L/512))` applied to one length-`L` row,
row-major. -/
def reshapeTo512 (v : QVec) : QMat :=
  (List.range 512).map (fun c =>
    (List.range (v.length / 512)).map (fun t => v.getD (c * (v.length / 512) + t) 0))

/-- `torch.cat((a, b), 2)` on one sample: concatenate matching channels along
the time axis. -/
def catTime1 (a b : QMat) : QMat := a.zipWith (· ++ ·) b

/-- `torch.cat((a, b), 2)` on batched `(B, C, T)` tensors. -/
def catTime (a b : Ten3) : Ten3 := a.zipWith catTime1 b

/-- `VISURAL_RES_NET{1,2}.forward` (lines 34-42 / 55-64): backbone, squeeze,
linear predictor, reshape to `(B, 512, L/512)`, then
`torch.cat((pred, pred, pred, pred), 2)`. -/
def VISURAL_RES_NET.forward (n : VISURAL_RES_NET) (inputs : Ten4) : Ten3 :=
  let audio_feature := squeezeLast2 (n.backbone inputs)
  let pred := audio_feature.map (linear512 n.w n.b)
  let pred3 := pred.map reshapeTo512
  catTime (catTime (catTime pred3 pred3) pred3) pred3

/-- `Encoder` from `encoder.py` lines 144-330.  `combine_conv_blocks` is
constructed by `__init__` but unused by `forward`/`encode` (the loop that
would apply it is commented out in the source); `encode_RIR_s` is likewise
constructed but never applied and is omitted.  `out_channels` is the
attribute set at the end of `__init__`
(`encode_channels * seperate_channel_ratios_speech[-1]`). -/
structure Encoder where
  mode : Mode
  conv : Conv1dM
  conv_combine : Conv1dM
  combine_conv_blocks : List EncoderBlock
  seperate_conv_blocks_1 : List EncoderBlock
  encode_RIR : EncodeRIR
  out_channels : ℕ
  visual_res_net1 : VISURAL_RES_NET
  visual_res_net2 : VISURAL_RES_NET

/-- The speech pathway of `Encoder.forward`: the 3-tap combine convolution,
the wide-kernel convolution, then the `seperate_conv_blocks_1` stack. -/
def Encoder.speechBranch (e : Encoder) (x : Ten3) : Ten3 :=
  e.seperate_conv_blocks_1.foldl (fun a blk => blk.forward a)
    (e.conv.applyB (e.conv_combine.applyB x))

/-- The RIR pathway of `Encoder.forward`: the 3-tap combine convolution
followed by the `encode_RIR` large-kernel stack. -/
def Encoder.rirBranch (e : Encoder) (x : Ten3) : Ten3 :=
  e.encode_RIR.applyB (e.conv_combine.applyB x)

/-- `Encoder.forward` (lines 249-288), translated statement by statement:
`mi_code = visual_res_net1(mi)`, `ci_code = visual_res_net2(ci)`,
`x_combine = conv_combine(x)`, `x_speech = conv(x_combine)`,
`x_rir = x_combine`, the speech block loop, `x_rir = encode_RIR(x_rir)`,
`x_speech_AV = cat((x_speech, ci_code), 2)`,
`x_rir_AV = cat((x_rir, mi_code), 2)`. -/
def Encoder.forward (e : Encoder) (x : Ten3) (mi ci : Ten4) : Ten3 × Ten3 :=
  let mi_code := e.visual_res_net1.forward mi
  let ci_code := e.visual_res_net2.forward ci
  let x_combine := e.conv_combine.applyB x
  let x_speech := e.conv.applyB x_combine
  let x_rir := x_combine
  let x_speech2 := e.seperate_conv_blocks_1.foldl (fun a blk => blk.forward a) x_speech
  let x_rir2 := e.encode_RIR.applyB x_rir
  (catTime x_speech2 ci_code, catTime x_rir2 mi_code)

/-- `Encoder.encode` (lines 290-330): `check_mode` first, then the same
statements as `forward` (the `print` diagnostics have no modelled effect). -/
def Encoder.encode (e : Encoder) (x : Ten3) (mi ci : Ten4) : Except PyError (Ten3 × Ten3) :=
  (checkMode e.mode).bind (fun _ =>
    let mi_code := e.visual_res_net1.forward mi
    let ci_code := e.visual_res_net2.forward ci
    let x_combine := e.conv_combine.applyB x
    let x_speech := e.conv.applyB x_combine
    let x_rir := x_combine
    let x_speech2 := e.seperate_conv_blocks_1.foldl (fun a blk => blk.forward a) x_speech
    let x_rir2 := e.encode_RIR.applyB x_rir
    .ok (catTime x_speech2 ci_code, catTime x_rir2 mi_code))

/-- A positional argument of a Python call to the encoder module: either an
audio `(B, C, T)` tensor or a visual `(B, 3, H, W)` tensor. -/
inductive EncArg where
  | audio (x : Ten3)
  | visual (v : Ten4)

/-- Python call semantics for the encoder module: `nn.Module.__call__`
dispatches the positional arguments to `Encoder.forward(self, x, mi, ci)`;
any call that does not supply exactly the audio tensor and the two visual
tensors raises a `TypeError` before any computation runs. -/
def Encoder.callArgs (e : Encoder) (args : List EncArg) : Except PyError (Ten3 × Ten3) :=
  match args with
  | [.audio x, .visual mi, .visual ci] => .ok (e.forward x mi ci)
  | _ => .error .typeError

/-- Mean of a list of samples (`0` for the empty list, since `x / 0 = 0`
in `ℚ`). -/
def batchMean (l : QVec) : ℚ := l.sum / (l.length : ℚ)

/-- Sum of squared deviations from the mean. -/
def centeredSS (l : QVec) : ℚ := (l.map (fun x => (x - batchMean l) ^ 2)).sum

/-- Population variance of a list of samples (`0` for the empty list). -/
def batchVar (l : QVec) : ℚ := centeredSS l / (l.length : ℚ)

/-- Column `j` of a rows × columns sample matrix. -/
def colVals (X : QMat) (j : ℕ) : QVec := X.map (fun r => r.getD j 0)

/-- One channel of sklearn's incremental mean update
(`_incremental_mean_and_var`, exact arithmetic): previous count `n` and mean
`μ` merged with a new column of samples. -/
def mergeMean (n : ℕ) (μ : ℚ) (col : QVec) : ℚ :=
  ((n : ℚ) * μ + col.sum) / ((n : ℚ) + (col.length : ℚ))

/-- One channel of sklearn's incremental variance update (Chan's parallel
formula, exact arithmetic): previous count `n`, mean `μ`, variance `v`
merged with a new column of samples. -/
def mergeVar (n : ℕ) (μ v : ℚ) (col : QVec) : ℚ :=
  ((n : ℚ) * v + centeredSS col +
    ((n : ℚ) * (col.length : ℚ) / ((n : ℚ) + (col.length : ℚ))) * (μ - batchMean col) ^ 2) /
  ((n : ℚ) + (col.length : ℚ))

/-- `sklearn.preprocessing.StandardScaler` (external library), modelled by
its documented semantics: `fitted` is `none` before the first partial-fit
call (the `mean_` / `scale_` attributes do not exist yet and reading them
raises an `AttributeError`), and afterwards holds
`(n_samples_seen_, mean_, var_)`. -/
structure StandardScaler where
  fitted : Option (ℕ × QVec × QVec)

/-- A freshly constructed `StandardScaler()`. -/
def StandardScaler.empty : StandardScaler := ⟨none⟩

/-- `StandardScaler.partial_fit(X)` for a rows × columns sample matrix `X`:
per-column incremental mean/variance update, starting from count 0 and
zero statistics on the first call (sklearn's uniform update formula). -/
def StandardScaler.fitBatch (s : StandardScaler) (X : QMat) : StandardScaler :=
  let C := (X.headD []).length
  match s.fitted with
  | none =>
      ⟨some (X.length,
        (List.range C).map (fun j => mergeMean 0 0 (colVals X j)),
        (List.range C).map (fun j => mergeVar 0 0 0 (colVals X j)))⟩
  | some st =>
      ⟨some (st.1 + X.length,
        (List.range C).map (fun j => mergeMean st.1 (st.2.1.getD j 0) (colVals X j)),
        (List.range C).map (fun j => mergeVar st.1 (st.2.1.getD j 0) (st.2.2.getD j 0) (colVals X j)))⟩

/-- Reading `scaler.mean_`: an `AttributeError` before the first fit. -/
def StandardScaler.meanAttr (s : StandardScaler) : Except PyError QVec :=
  match s.fitted with
  | none => .error .attributeError
  | some st => .ok st.2.1

/-- sklearn's `scale_` entry for one variance: `sqrt(var)`, with exact zeros
replaced by 1 (`_handle_zeros_in_scale`). -/
noncomputable def scaleOf (v : ℚ) : ℝ :=
  if v = 0 then 1 else Real.sqrt (v : ℝ)

/-- Reading `scaler.scale_`: an `AttributeError` before the first fit,
otherwise the per-channel scale derived from `var_`. -/
noncomputable def StandardScaler.scaleAttr (s : StandardScaler) : Except PyError (List ℝ) :=
  match s.fitted with
  | none => .error .attributeError
  | some st => .ok (st.2.2.map scaleOf)

/-- The scaler state after partial-fitting the batches `bs` in order into a
fresh scaler. -/
def scalerState (bs : List QMat) : StandardScaler :=
  bs.foldl StandardScaler.fitBatch StandardScaler.empty

/-- The dtype tag recorded by `.astype(np.float32)` before saving. -/
inductive NpDType where
  | float32
deriving DecidableEq

/-- One `np.save` call: target path, the saved 2-axis array, its dtype, and
the `allow_pickle` flag (`False` means no object metadata is written). -/
structure FileWrite where
  path : String
  data : List (List ℝ)
  dtype : NpDType
  allowPickle : Bool

/-- `StatisticMain.run` (codecStatistic.py lines 116-139), parameterized by
the per-utterance analysis step `self.audio_analysis`: fold
`partial_fit` over the dataset for both scalers, then read `mean_`/`scale_`
of each scaler, stack them as `[[mean_], [scale_]]`, cast to float32 and
`np.save` with `allow_pickle=False` — speech first, then RIR.  The returned
number is the final loop counter `idx` logged at the end. -/
noncomputable def runWith (analysis : QMat → Except PyError (QMat × QMat)) (pS pR : String)
    (ds : List QMat) : Except PyError (List FileWrite × ℕ) :=
  (ds.foldlM (fun (p : StandardScaler × StandardScaler) a =>
      (analysis a).bind (fun z => .ok (p.1.fitBatch z.1, p.2.fitBatch z.2)))
    (StandardScaler.empty, StandardScaler.empty)).bind (fun p =>
  (p.1.meanAttr).bind (fun mS =>
  (p.1.scaleAttr).bind (fun sS =>
  (p.2.meanAttr).bind (fun mR =>
  (p.2.scaleAttr).bind (fun sR =>
  .ok ([⟨pS, [mS.map (fun q => (q : ℝ)), sS], .float32, false⟩,
        ⟨pR, [mR.map (fun q => (q : ℝ)), sR], .float32, false⟩], ds.length))))))

/-- `StatisticMain` (codecStatistic.py).  Modelled from the spec: the
analyzer is the AudioDec generator (`models/autoencoder/AudioDec.py`, not
under `src/`); per spec §2/§4.4 its `encoder` attribute is the §4.4
`Encoder` composition root, and per spec §3 ("Quantized Code") the
projector/quantizer pair of each branch preserves the channel shape of its
latent stream — they are opaque functions here (the quantizer's code/loss
outputs are dropped as in `zq, _, _ = quantizer(z)`). -/
structure StatisticMain where
  analyzer_encoder : Encoder
  projector_speech : Ten3 → Ten3
  projector_rir : Ten3 → Ten3
  quantizer_speech : Ten3 → Ten3
  quantizer_rir : Ten3 → Ten3
  stats_path_speech : String
  stats_path_rir : String

/-- `StatisticMain.audio_analysis` (lines 100-113): `(T, C)` audio is
transposed and unsqueezed to `(1, C, T)`, the analyzer's encoder is called
with that single positional argument (`self.analyzer.encoder(x)`), each
branch is projected and quantized, and the codes are squeezed/transposed
back to `(T', C)` sample matrices. -/
def StatisticMain.audio_analysis (M : StatisticMain) (audio : QMat) :
    Except PyError (QMat × QMat) :=
  let x : Ten3 := [audio.transpose]
  (M.analyzer_encoder.callArgs [EncArg.audio x]).bind (fun r =>
    let z_speech := M.projector_speech r.1
    let zq_speech := M.quantizer_speech z_speech
    let z_rir := M.projector_rir r.2
    let zq_rir := M.quantizer_rir z_rir
    .ok ((zq_speech.headD []).transpose, (zq_rir.headD []).transpose))

/-- `StatisticMain.run` with the instance's own analysis step and
configured output paths. -/
noncomputable def StatisticMain.run (M : StatisticMain) (ds : List QMat) :
    Except PyError (List FileWrite × ℕ) :=
  runWith M.audio_analysis M.stats_path_speech M.stats_path_rir ds

/-- The configuration context `TestMain.load_dataset` reads.  Modelled from
the spec: the `TestGEN` base class (`bin/test.py`, not under `src/`)
provides `self.config['data']['subset'][subset]` and the
`data_reverb_path` / `data_material_path` / `data_image_path` attributes as
configured strings (spec §6). -/
structure TestConfig where
  subsetDir : String
  data_reverb_path : String
  data_material_path : String
  data_image_path : String

/-- `os.path.join` of two path components. -/
def joinPath (a b : String) : String := a ++ "/" ++ b

/-- `TestMain.load_dataset` (codecTest.py lines 40-61), modelled with an
explicit local-variable environment to capture Python name resolution: the
function assigns `audio_rs_dir`, `audio_material_dir`, `audio_image_dir`,
then executes `assert os.path.exists(data_path)` — the name `data_path` is
only ever assigned in commented-out code, so the lookup consults the local
environment and fails.  On a (hypothetical) successful assert, the
`SingleDataset` file list would be built from the three directories. -/
def TestMain.load_dataset (cfg : TestConfig) (pathExists : String → Bool) :
    Except PyError (List String) :=
  let env0 : List (String × String) := []
  let env1 := ("audio_rs_dir", joinPath cfg.subsetDir cfg.data_reverb_path) :: env0
  let env2 := ("audio_material_dir", joinPath cfg.subsetDir cfg.data_material_path) :: env1
  let env3 := ("audio_image_dir", joinPath cfg.subsetDir cfg.data_image_path) :: env2
  match env3.lookup "data_path" with
  | none => .error .nameError
  | some p =>
      if pathExists p then
        .ok [(env3.lookup "audio_rs_dir").getD "", (env3.lookup "audio_material_dir").getD "",
             (env3.lookup "audio_image_dir").getD ""]
      else .error .assertionError

/-- Fixture: a residual unit whose transform is the identity (trivially
satisfies the §4.1 shape contract); used to instantiate witnesses. -/
def idResUnit : ResidualUnit := ⟨id, id, fun _ _ _ h => h⟩

/-- Fixture: a 1-channel, kernel-1, stride-1 convolution with zero weights. -/
def zeroConv (m : Mode) : Conv1dM := ⟨m, 1, 1, 1, 1, fun _ _ _ => 0, fun _ => 0, id⟩

/-- Fixture: a 1-channel `torch.nn.Conv1d` with zero weights. -/
def zeroTorchConv : TorchConv1d := ⟨1, 1, 1, 1, 0, fun _ _ _ => 0⟩

/-- Fixture: an identity-scale batch normalization. -/
def zeroBN : BatchNorm1dEval := ⟨fun _ => 0, fun _ => 0⟩

/-- Fixture: a small `encode_RIR` stack. -/
def zeroRIR : EncodeRIR := ⟨zeroTorchConv, zeroTorchConv, zeroTorchConv, zeroBN, zeroBN⟩

/-- Fixture: a visual net returning an empty batch. -/
def zeroVNet : VISURAL_RES_NET := ⟨fun _ => [], fun _ _ => 0, fun _ => 0⟩

/-- Fixture: a visual net whose backbone returns a `(1, 512, 1, 1)` zero
feature tensor. -/
def constVNet : VISURAL_RES_NET :=
  ⟨fun _ => [List.replicate 512 [[0]]], fun _ _ => 0, fun _ => 0⟩

/-- Fixture: a minimal encoder in the given mode. -/
def sampleEncoder (m : Mode) : Encoder :=
  ⟨m, zeroConv m, zeroConv m, [], [], zeroRIR, 0, zeroVNet, zeroVNet⟩

/-- Fixture: an encoder block built by `EncoderBlock.init` with the source's
default dilations. -/
def sampleBlock (m : Mode) : EncoderBlock :=
  EncoderBlock.init 1 1 2 [1, 3, 9] m (fun _ => idResUnit) (fun _ _ _ => 0) (fun _ => 0) id

/-- Claim C2: every `Encoder.forward` pass returns, as the speech latent
stream, the speech branch output concatenated along the time axis with the
scene (`ci`) visual embedding, and, as the RIR latent stream, the RIR branch
output concatenated along the time axis with the material (`mi`) visual
embedding — the pairing is fixed by lines 274-275 of `encoder.py` and is
never the other way around. -/
theorem claim_C2_forward_pairing (e : Encoder) (x : Ten3) (mi ci : Ten4) :
    e.forward x mi ci =
      (catTime (e.speechBranch x) (e.visual_res_net2.forward ci),
       catTime (e.rirBranch x) (e.visual_res_net1.forward mi)) := rfl

/-- Claim C9: for a causal-mode encoder, `Encoder.encode` returns exactly the
pair computed by `Encoder.forward` on the same inputs — `encode` only adds
the `check_mode` guard and diagnostic printing. -/
theorem claim_C9_encode_eq_forward (e : Encoder) (x : Ten3) (mi ci : Ten4)
    (h : e.mode = Mode.causal) :
    e.encode x mi ci = .ok (e.forward x mi ci) := by
  unfold Encoder.encode
  rw [h]
  rfl

/-- Witness for claim C9 at a concrete causal encoder and concrete inputs. -/
theorem claim_C9_witness :
    (sampleEncoder Mode.causal).encode [] [] [] =
      .ok ((sampleEncoder Mode.causal).forward [] [] []) :=
  claim_C9_encode_eq_forward (sampleEncoder Mode.causal) [] [] [] rfl

/-- Claim C4: a component constructed in non-causal mode rejects its
streaming entry point (`EncoderBlock.inference`, `Encoder.encode`) with a
mode-mismatch error unconditionally — for every input, before any
computation on that input. -/
theorem claim_C4_noncausal_rejected :
    (∀ (blk : EncoderBlock) (x : Ten3), blk.mode = Mode.noncausal →
      blk.inference x = .error .modeMismatch) ∧
    (∀ (e : Encoder) (x : Ten3) (mi ci : Ten4), e.mode = Mode.noncausal →
      e.encode x mi ci = .error .modeMismatch) := by
  constructor
  · intro blk x h
    unfold EncoderBlock.inference
    rw [h]
    rfl
  · intro e x mi ci h
    unfold Encoder.encode
    rw [h]
    rfl

/-- Witness for claim C4 at a concrete non-causal block and encoder. -/
theorem claim_C4_witness :
    (sampleBlock Mode.noncausal).inference [[[1, 2]]] = .error .modeMismatch ∧
    (sampleEncoder Mode.noncausal).encode [[[1, 2]]] [] [] = .error .modeMismatch :=
  ⟨claim_C4_noncausal_rejected.1 (sampleBlock Mode.noncausal) [[[1, 2]]] rfl,
   claim_C4_noncausal_rejected.2 (sampleEncoder Mode.noncausal) [[[1, 2]]] [] [] rfl⟩

/-- Claim C10: `TestMain.load_dataset` reaches
`assert os.path.exists(data_path)` with the name `data_path` unbound in its
local environment (it is assigned only in commented-out code), so it raises
a `NameError` for every configuration and never constructs the dataset. -/
theorem claim_C10_load_dataset_nameerror (cfg : TestConfig) (pathExists : String → Bool) :
    TestMain.load_dataset cfg pathExists = .error .nameError := rfl

/-- Claim C3: a statistics run over an empty dataset raises an error (the
unfitted scaler has no `mean_` attribute, so line 125 of `codecStatistic.py`
raises before any `np.save`) and consequently produces no file writes. -/
theorem claim_C3_empty_dataset_error (M : StatisticMain) :
    M.run [] = .error .attributeError := rfl

/-- Claim C1 (failing run): `StatisticMain.audio_analysis` calls
`self.analyzer.encoder(x)` with a single positional argument, while
`Encoder.forward` requires `(x, mi, ci)`; hence every statistics run over a
non-empty dataset — in particular the single-utterance 1-second/16 kHz
scenario — raises a `TypeError` at the first utterance and writes no
statistics files. -/
theorem claim_C1_run_typeerror (M : StatisticMain) (audio : QMat) (rest : List QMat) :
    M.run (audio :: rest) = .error .typeError := rfl

lemma isQMat_timeLen {C T : ℕ} {x : QMat} (h : IsQMat C T x) (hC : 0 < C) :
    timeLen x = T := by
  cases x with
  | nil =>
      exfalso
      have h1 := h.1
      simp only [List.length_nil] at h1
      omega
  | cons r rs => exact h.2 r (List.mem_cons_self r rs)

lemma conv_apply_shape (c : Conv1dM) {C T : ℕ} {x : QMat} (h : IsQMat C T x) (hC : 0 < C) :
    IsQMat c.outC (outTime c.mode c.s T) (c.apply x) := by
  unfold Conv1dM.apply
  rw [isQMat_timeLen h hC]
  refine ⟨by simp, ?_⟩
  intro r hr
  simp only [List.mem_map, List.mem_range] at hr
  obtain ⟨o, _, rfl⟩ := hr
  simp

lemma resUnits_foldl_shape (us : List ResidualUnit) {C T : ℕ} :
    ∀ x : QMat, IsQMat C T x → IsQMat C T (us.foldl (fun a u => u.f a) x) := by
  induction us with
  | nil => intro x h; exact h
  | cons u us ih =>
      intro x h
      simp only [List.foldl_cons]
      exact ih _ (u.shape_f C T x h)

lemma encoderBlock_forward1_shape (blk : EncoderBlock) {C T : ℕ} {x : QMat}
    (h : IsQMat C T x) (hC : 0 < C) :
    IsQMat blk.conv.outC (outTime blk.conv.mode blk.conv.s T) (blk.forward1 x) :=
  conv_apply_shape blk.conv (resUnits_foldl_shape blk.res_units x h) hC

lemma outTime_dvd (m : Mode) {s T : ℕ} (hs : 0 < s) (hd : s ∣ T) :
    outTime m s T = T / s := by
  cases m with
  | noncausal => rfl
  | causal =>
      rcases hd with ⟨q, rfl⟩
      cases q with
      | zero => simp [outTime, causalLen]
      | succ q' =>
          have hmul : s * (q' + 1) = s * q' + s := by ring
          have hne : s * (q' + 1) ≠ 0 := by omega
          have hsub : s * (q' + 1) - 1 = (s - 1) + s * q' := by omega
          have hdiv : ((s - 1) + s * q') / s = q' := by
            rw [Nat.add_mul_div_left _ _ hs, Nat.div_eq_of_lt (by omega)]
            omega
          have hdivT : s * (q' + 1) / s = q' + 1 := Nat.mul_div_cancel_left _ hs
          simp only [outTime, causalLen, if_neg hne, hsub, hdiv, hdivT]

lemma zipWith_mem_shape {α β γ : Type} (f : α → β → γ) (P : α → Prop) (Q : β → Prop)
    (R : γ → Prop) (hf : ∀ x y, P x → Q y → R (f x y)) :
    ∀ (a : List α) (b : List β), (∀ x ∈ a, P x) → (∀ y ∈ b, Q y) →
      ∀ z ∈ a.zipWith f b, R z := by
  intro a
  induction a with
  | nil => intro b _ _ z hz; simp at hz
  | cons x xs ih =>
      intro b ha hb z hz
      cases b with
      | nil => simp at hz
      | cons y ys =>
          simp only [List.zipWith_cons_cons, List.mem_cons] at hz
          rcases hz with rfl | hz
          · exact hf x y (ha x (by simp)) (hb y (by simp))
          · exact ih ys (fun r hr => ha r (by simp [hr])) (fun r hr => hb r (by simp [hr])) z hz

lemma catTime1_shape {C t1 t2 : ℕ} {a b : QMat} (ha : IsQMat C t1 a) (hb : IsQMat C t2 b) :
    IsQMat C (t1 + t2) (catTime1 a b) := by
  refine ⟨by simp [catTime1, ha.1, hb.1], ?_⟩
  exact zipWith_mem_shape (· ++ ·) (fun r => r.length = t1) (fun r => r.length = t2)
    (fun r => r.length = t1 + t2) (by intro x y hx hy; simp [hx, hy]) a b ha.2 hb.2

lemma catTime_shape {B C t1 t2 : ℕ} {a b : Ten3} (ha : IsTen3 B C t1 a) (hb : IsTen3 B C t2 b) :
    IsTen3 B C (t1 + t2) (catTime a b) := by
  refine ⟨by simp [catTime, ha.1, hb.1], ?_⟩
  exact zipWith_mem_shape catTime1 (IsQMat C t1) (IsQMat C t2) (IsQMat C (t1 + t2))
    (fun x y hx hy => catTime1_shape hx hy) a b ha.2 hb.2

/-- Claim C6: for every input `(B, Cin, T)` with `T` divisible by the
configured stride, `EncoderBlock.forward` returns a tensor of shape
`(B, Cout, T / stride)` — the output time length equals the input time
length divided by the stride, exactly. -/
theorem claim_C6_block_downsample (inC outC stride B T : ℕ) (dil : List ℕ) (mode : Mode)
    (mkRU : ℕ → ResidualUnit) (w : ℕ → ℕ → ℕ → ℚ) (b : ℕ → ℚ) (cInf : QMat → QMat)
    (x : Ten3) (hs : 0 < stride) (hd : stride ∣ T) (hC : 0 < inC) (hx : IsTen3 B inC T x) :
    IsTen3 B outC (T / stride)
      ((EncoderBlock.init inC outC stride dil mode mkRU w b cInf).forward x) := by
  refine ⟨by simp [EncoderBlock.forward, hx.1], ?_⟩
  intro m hm
  simp only [EncoderBlock.forward, List.mem_map] at hm
  obtain ⟨m0, hm0, rfl⟩ := hm
  have h1 : IsQMat outC (outTime mode stride T)
      ((EncoderBlock.init inC outC stride dil mode mkRU w b cInf).forward1 m0) :=
    encoderBlock_forward1_shape _ (hx.2 m0 hm0) hC
  rwa [outTime_dvd mode hs hd] at h1

/-- Witness for claim C6 at a concrete causal block of stride 2 on a
`(1, 1, 4)` input. -/
theorem claim_C6_witness :
    IsTen3 1 1 2 ((EncoderBlock.init 1 1 2 [1, 3, 9] Mode.causal (fun _ => idResUnit)
      (fun _ _ _ => 0) (fun _ => 0) id).forward [[[1, 2, 3, 4]]]) :=
  claim_C6_block_downsample 1 1 2 1 4 [1, 3, 9] Mode.causal (fun _ => idResUnit)
    (fun _ _ _ => 0) (fun _ => 0) id [[[1, 2, 3, 4]]]
    (by decide) (by decide) (by decide) (by decide)

lemma linear512_length (w : ℕ → ℕ → ℚ) (b : ℕ → ℚ) (v : QVec) :
    (linear512 w b v).length = 512 := by simp [linear512]

lemma reshapeTo512_shape {v : QVec} (hv : v.length = 512) : IsQMat 512 1 (reshapeTo512 v) := by
  refine ⟨by simp [reshapeTo512], ?_⟩
  intro r hr
  simp only [reshapeTo512, hv, List.mem_map, List.mem_range] at hr
  obtain ⟨c, _, rfl⟩ := hr
  simp [hv]

lemma squeezeLast2_shape {B : ℕ} {x : Ten4} (h : IsTen4 B 512 1 1 x) :
    (squeezeLast2 x).length = B ∧ ∀ r ∈ squeezeLast2 x, r.length = 512 := by
  refine ⟨by simp [squeezeLast2, h.1], ?_⟩
  intro r hr
  simp only [squeezeLast2, List.mem_map] at hr
  obtain ⟨t, ht, rfl⟩ := hr
  simp [(h.2 t ht).1]

/-- Claim C5: for every image batch accepted by the backbone (which then
yields a `(B, 512, 1, 1)` feature tensor), the visual feature extractor's
forward pass returns a tensor of shape exactly `(B, 512, 4)`, independent of
the image height and width. -/
theorem claim_C5_visual_shape (n : VISURAL_RES_NET) (inputs : Ten4) (B H W : ℕ)
    (hin : IsTen4 B 3 H W inputs) (hb : IsTen4 B 512 1 1 (n.backbone inputs)) :
    IsTen3 B 512 4 (n.forward inputs) := by
  have hsq := squeezeLast2_shape hb
  have hpred3 : IsTen3 B 512 1
      (((squeezeLast2 (n.backbone inputs)).map (linear512 n.w n.b)).map reshapeTo512) := by
    refine ⟨by simp [hsq.1], ?_⟩
    intro m hm
    simp only [List.mem_map] at hm
    obtain ⟨v, ⟨v0, hv0, rfl⟩, rfl⟩ := hm
    exact reshapeTo512_shape (linear512_length n.w n.b v0)
  have h4 := catTime_shape (catTime_shape (catTime_shape hpred3 hpred3) hpred3) hpred3
  exact h4

set_option maxRecDepth 8192 in
/-- Witness for claim C5 at a one-image batch and a concrete extractor. -/
theorem claim_C5_witness :
    IsTen3 1 512 4 (constVNet.forward [List.replicate 3 [[0]]]) :=
  claim_C5_visual_shape constVNet [List.replicate 3 [[0]]] 1 1 1 (by decide) (by decide)

lemma batchMean_nil : batchMean [] = 0 := by simp [batchMean]

lemma batchVar_nil : batchVar [] = 0 := by simp [batchVar, centeredSS]

lemma colVals_length (X : QMat) (j : ℕ) : (colVals X j).length = X.length := by
  simp [colVals]

lemma colVals_append (P Q : QMat) (j : ℕ) :
    colVals (P ++ Q) j = colVals P j ++ colVals Q j := by
  simp [colVals]

lemma colVals_ne_nil {X : QMat} (hX : X ≠ []) (j : ℕ) : colVals X j ≠ [] := by
  simp only [colVals, ne_eq, List.map_eq_nil_iff]
  exact hX

lemma getD_range_map (f : ℕ → ℚ) {C j : ℕ} (hj : j < C) :
    ((List.range C).map f).getD j 0 = f j := by
  rw [List.getD_eq_getElem?_getD, List.getElem?_map, List.getElem?_range hj]
  rfl

lemma sum_centered_general (μ : ℚ) (l : QVec) :
    (l.map (fun x => (x - μ) ^ 2)).sum =
      (l.map (fun x => x ^ 2)).sum - 2 * μ * l.sum + (l.length : ℚ) * μ ^ 2 := by
  induction l with
  | nil => simp
  | cons a l ih =>
      simp only [List.map_cons, List.sum_cons, List.length_cons, ih]
      push_cast
      ring

lemma centeredSS_eq (l : QVec) :
    centeredSS l = (l.map (fun x => x ^ 2)).sum - l.sum ^ 2 / (l.length : ℚ) := by
  rcases eq_or_ne l [] with rfl | hl
  · simp [centeredSS]
  · have hn : (l.length : ℚ) ≠ 0 :=
      Nat.cast_ne_zero.mpr (fun h => hl (List.length_eq_zero.mp h))
    unfold centeredSS
    rw [sum_centered_general]
    unfold batchMean
    field_simp
    ring

lemma batchVar_eq (l : QVec) :
    batchVar l = (l.map (fun x => x ^ 2)).sum / (l.length : ℚ) -
      (l.sum / (l.length : ℚ)) ^ 2 := by
  rcases eq_or_ne l [] with rfl | hl
  · simp [batchVar, centeredSS]
  · have hn : (l.length : ℚ) ≠ 0 :=
      Nat.cast_ne_zero.mpr (fun h => hl (List.length_eq_zero.mp h))
    unfold batchVar
    rw [centeredSS_eq]
    field_simp
    ring

lemma mergeMean_eq (a b : QVec) (hb : b ≠ []) :
    mergeMean a.length (batchMean a) b = batchMean (a ++ b) := by
  have hm : (b.length : ℚ) ≠ 0 :=
    Nat.cast_ne_zero.mpr (fun h => hb (List.length_eq_zero.mp h))
  rcases eq_or_ne a [] with rfl | ha
  · simp [mergeMean, batchMean]
  · have hn : (a.length : ℚ) ≠ 0 :=
      Nat.cast_ne_zero.mpr (fun h => ha (List.length_eq_zero.mp h))
    have hnm : (a.length : ℚ) + (b.length : ℚ) ≠ 0 := by
      have hx : a.length + b.length ≠ 0 := by
        intro h
        exact hb (List.length_eq_zero.mp (by omega))
      exact_mod_cast Nat.cast_ne_zero.mpr hx
    unfold mergeMean batchMean
    rw [List.sum_append, List.length_append]
    push_cast
    field_simp

lemma mergeVar_eq (a b : QVec) (hb : b ≠ []) :
    mergeVar a.length (batchMean a) (batchVar a) b = batchVar (a ++ b) := by
  have hm : (b.length : ℚ) ≠ 0 :=
    Nat.cast_ne_zero.mpr (fun h => hb (List.length_eq_zero.mp h))
  rcases eq_or_ne a [] with rfl | ha
  · unfold mergeVar batchVar
    simp
  · have hn : (a.length : ℚ) ≠ 0 :=
      Nat.cast_ne_zero.mpr (fun h => ha (List.length_eq_zero.mp h))
    have hnm : (a.length : ℚ) + (b.length : ℚ) ≠ 0 := by
      have hx : a.length + b.length ≠ 0 := by
        intro h
        exact hb (List.length_eq_zero.mp (by omega))
      exact_mod_cast Nat.cast_ne_zero.mpr hx
    unfold mergeVar
    rw [batchVar_eq a, batchVar_eq (a ++ b), centeredSS_eq b]
    unfold batchMean
    simp only [List.map_append, List.sum_append, List.length_append]
    push_cast
    field_simp
    ring

lemma mergeMean_zero (col : QVec) (hcol : col ≠ []) : mergeMean 0 0 col = batchMean col := by
  have h := mergeMean_eq [] col hcol
  simpa [batchMean_nil] using h

lemma mergeVar_zero (col : QVec) (hcol : col ≠ []) : mergeVar 0 0 0 col = batchVar col := by
  have h := mergeVar_eq [] col hcol
  simpa [batchMean_nil, batchVar_nil] using h

lemma fitBatch_none (X : QMat) :
    StandardScaler.empty.fitBatch X = ⟨some (X.length,
      (List.range (X.headD []).length).map (fun j => mergeMean 0 0 (colVals X j)),
      (List.range (X.headD []).length).map (fun j => mergeVar 0 0 0 (colVals X j)))⟩ := rfl

lemma fitBatch_some (n : ℕ) (μ v : QVec) (X : QMat) :
    (StandardScaler.mk (some (n, μ, v))).fitBatch X = ⟨some (n + X.length,
      (List.range (X.headD []).length).map (fun j => mergeMean n (μ.getD j 0) (colVals X j)),
      (List.range (X.headD []).length).map
        (fun j => mergeVar n (μ.getD j 0) (v.getD j 0) (colVals X j)))⟩ := rfl

lemma scalerState_spec (C : ℕ) : ∀ bs : List QMat, bs ≠ [] →
    (∀ Y ∈ bs, Y ≠ [] ∧ ∀ r ∈ Y, r.length = C) →
    (scalerState bs).fitted = some (bs.flatten.length,
      (List.range C).map (fun j => batchMean (colVals bs.flatten j)),
      (List.range C).map (fun j => batchVar (colVals bs.flatten j))) := by
  intro bs
  induction bs using List.reverseRecOn with
  | nil => intro h _; exact absurd rfl h
  | append_singleton as X ih =>
      intro _ hbs
      have has : ∀ Y ∈ as, Y ≠ [] ∧ ∀ r ∈ Y, r.length = C :=
        fun Y hY => hbs Y (by simp [hY])
      have hX := hbs X (by simp)
      have hCX : (X.headD []).length = C := by
        cases X with
        | nil => exact absurd rfl hX.1
        | cons r rs => exact hX.2 r (by simp)
      have hstep : scalerState (as ++ [X]) = (scalerState as).fitBatch X := by
        simp [scalerState, List.foldl_append]
      rcases eq_or_ne as [] with rfl | hasne
      · rw [hstep]
        rw [show scalerState ([] : List QMat) = StandardScaler.empty from rfl, fitBatch_none]
        simp only [hCX, List.nil_append, List.flatten_cons, List.flatten_nil, List.append_nil]
        have hA : (List.range C).map (fun j => mergeMean 0 0 (colVals X j)) =
            (List.range C).map (fun j => batchMean (colVals X j)) :=
          List.map_congr_left (fun j _ => mergeMean_zero _ (colVals_ne_nil hX.1 j))
        have hB : (List.range C).map (fun j => mergeVar 0 0 0 (colVals X j)) =
            (List.range C).map (fun j => batchVar (colVals X j)) :=
          List.map_congr_left (fun j _ => mergeVar_zero _ (colVals_ne_nil hX.1 j))
        rw [hA, hB]
      · have h1 := ih hasne has
        have h2 : scalerState as = ⟨(scalerState as).fitted⟩ := rfl
        rw [hstep, h2, h1, fitBatch_some]
        simp only [hCX, List.flatten_append, List.flatten_cons, List.flatten_nil,
          List.append_nil, List.length_append]
        have hA : ∀ j ∈ List.range C,
            mergeMean as.flatten.length
              (((List.range C).map (fun j' => batchMean (colVals as.flatten j'))).getD j 0)
              (colVals X j) = batchMean (colVals (as.flatten ++ X) j) := by
          intro j hj
          rw [getD_range_map _ (List.mem_range.mp hj), colVals_append,
            ← colVals_length as.flatten j]
          exact mergeMean_eq _ _ (colVals_ne_nil hX.1 j)
        have hB : ∀ j ∈ List.range C,
            mergeVar as.flatten.length
              (((List.range C).map (fun j' => batchMean (colVals as.flatten j'))).getD j 0)
              (((List.range C).map (fun j' => batchVar (colVals as.flatten j'))).getD j 0)
              (colVals X j) = batchVar (colVals (as.flatten ++ X) j) := by
          intro j hj
          rw [getD_range_map _ (List.mem_range.mp hj), getD_range_map _ (List.mem_range.mp hj),
            colVals_append, ← colVals_length as.flatten j]
          exact mergeVar_eq _ _ (colVals_ne_nil hX.1 j)
        rw [List.map_congr_left hA, List.map_congr_left hB]

lemma meanAttr_of_fitted {s : StandardScaler} {st : ℕ × QVec × QVec}
    (h : s.fitted = some st) : s.meanAttr = .ok st.2.1 := by
  unfold StandardScaler.meanAttr
  rw [h]

lemma scaleAttr_of_fitted {s : StandardScaler} {st : ℕ × QVec × QVec}
    (h : s.fitted = some st) : s.scaleAttr = .ok (st.2.2.map scaleOf) := by
  unfold StandardScaler.scaleAttr
  rw [h]

lemma perm_flatten {α : Type} {l1 l2 : List (List α)} (h : l1.Perm l2) :
    l1.flatten.Perm l2.flatten := by
  induction h with
  | nil => exact List.Perm.refl _
  | cons x _ ih => simpa [List.flatten_cons] using ih.append_left x
  | swap x y l =>
      simp only [List.flatten_cons]
      rw [← List.append_assoc, ← List.append_assoc]
      exact List.perm_append_comm.append_right _
  | trans _ _ ih1 ih2 => exact ih1.trans ih2

lemma batchMean_perm {l1 l2 : QVec} (h : l1.Perm l2) : batchMean l1 = batchMean l2 := by
  unfold batchMean
  rw [h.sum_eq, h.length_eq]

lemma batchVar_perm {l1 l2 : QVec} (h : l1.Perm l2) : batchVar l1 = batchVar l2 := by
  unfold batchVar centeredSS
  rw [batchMean_perm h, (h.map (fun x => (x - batchMean l2) ^ 2)).sum_eq, h.length_eq]

lemma colVals_perm {P Q : QMat} (h : P.Perm Q) (j : ℕ) :
    (colVals P j).Perm (colVals Q j) := by
  unfold colVals
  exact h.map _

lemma foldlM_ok (analysis : QMat → Except PyError (QMat × QMat)) (zs zr : QMat → QMat) :
    ∀ (ds : List QMat) (p : StandardScaler × StandardScaler),
      (∀ a ∈ ds, analysis a = .ok (zs a, zr a)) →
      List.foldlM (fun (p : StandardScaler × StandardScaler) a =>
          (analysis a).bind (fun z => .ok (p.1.fitBatch z.1, p.2.fitBatch z.2))) p ds
      = .ok (ds.foldl (fun s a => s.fitBatch (zs a)) p.1,
             ds.foldl (fun s a => s.fitBatch (zr a)) p.2) := by
  intro ds
  induction ds with
  | nil => intro p _; rfl
  | cons a l ih =>
      intro p h
      rw [List.foldlM_cons, h a (by simp)]
      simp only [List.foldl_cons]
      exact ih (p.1.fitBatch (zs a), p.2.fitBatch (zr a)) (fun c hc => h c (by simp [hc]))

/-- Claim C7 (as conditioned on a succeeding per-utterance analysis step; see
claim C1 for the analyzer-call defect): at the end of a non-empty statistics
run, each branch's statistics are persisted exactly once — the run performs
exactly the two writes below — as a float32 array of shape `(2, C)` written
with `allow_pickle=False` (no object metadata), whose row 0 is the
per-channel mean and row 1 the per-channel scale of all accumulated code
values of that branch. -/
theorem claim_C7_persist_format (analysis : QMat → Except PyError (QMat × QMat))
    (zs zr : QMat → QMat) (pS pR : String) (ds : List QMat) (Cs Cr : ℕ)
    (hok : ∀ a ∈ ds, analysis a = .ok (zs a, zr a))
    (hzs : ∀ a ∈ ds, zs a ≠ [] ∧ ∀ r ∈ zs a, r.length = Cs)
    (hzr : ∀ a ∈ ds, zr a ≠ [] ∧ ∀ r ∈ zr a, r.length = Cr)
    (hne : ds ≠ []) :
    runWith analysis pS pR ds = .ok
      ([⟨pS, [((List.range Cs).map (fun j => batchMean (colVals (ds.map zs).flatten j))).map
                (fun q => (q : ℝ)),
              ((List.range Cs).map (fun j => batchVar (colVals (ds.map zs).flatten j))).map
                scaleOf], .float32, false⟩,
        ⟨pR, [((List.range Cr).map (fun j => batchMean (colVals (ds.map zr).flatten j))).map
                (fun q => (q : ℝ)),
              ((List.range Cr).map (fun j => batchVar (colVals (ds.map zr).flatten j))).map
                scaleOf], .float32, false⟩], ds.length) := by
  have hS : List.foldl (fun s a => s.fitBatch (zs a)) StandardScaler.empty ds =
      scalerState (ds.map zs) := by
    rw [scalerState, List.foldl_map]
  have hR : List.foldl (fun s a => s.fitBatch (zr a)) StandardScaler.empty ds =
      scalerState (ds.map zr) := by
    rw [scalerState, List.foldl_map]
  have hneS : ds.map zs ≠ [] := by
    simp only [ne_eq, List.map_eq_nil_iff]
    exact hne
  have hneR : ds.map zr ≠ [] := by
    simp only [ne_eq, List.map_eq_nil_iff]
    exact hne
  have hsS : ∀ Y ∈ ds.map zs, Y ≠ [] ∧ ∀ r ∈ Y, r.length = Cs := by
    intro Y hY
    obtain ⟨a, ha, rfl⟩ := List.mem_map.mp hY
    exact hzs a ha
  have hsR : ∀ Y ∈ ds.map zr, Y ≠ [] ∧ ∀ r ∈ Y, r.length = Cr := by
    intro Y hY
    obtain ⟨a, ha, rfl⟩ := List.mem_map.mp hY
    exact hzr a ha
  have hfitS := scalerState_spec Cs (ds.map zs) hneS hsS
  have hfitR := scalerState_spec Cr (ds.map zr) hneR hsR
  unfold runWith
  rw [foldlM_ok analysis zs zr ds (StandardScaler.empty, StandardScaler.empty) hok]
  simp only [Except.bind, hS, hR, meanAttr_of_fitted hfitS, meanAttr_of_fitted hfitR,
    scaleAttr_of_fitted hfitS, scaleAttr_of_fitted hfitR]

/-- Witness for claim C7: a one-utterance dataset with a succeeding analysis
step yields exactly the two `(2, 1)` float32 writes. -/
theorem claim_C7_witness :
    runWith (fun a => Except.ok (a, a)) "stats_speech" "stats_rir" [[[1]]] = .ok
      ([⟨"stats_speech", [[(1 : ℝ)], [(1 : ℝ)]], .float32, false⟩,
        ⟨"stats_rir", [[(1 : ℝ)], [(1 : ℝ)]], .float32, false⟩], 1) := by
  have h := claim_C7_persist_format (fun a => Except.ok (a, a)) (fun a => a) (fun a => a)
    "stats_speech" "stats_rir" [[[1]]] 1 1
    (by intro a _; rfl) (by decide) (by decide) (by simp)
  rw [h]
  have hA : (List.range 1).map
      (fun j => batchMean (colVals (List.map (fun a => a) [[[1]]]).flatten j)) = [1] := by
    norm_num [List.range_succ, colVals, batchMean]
  have hB : (List.range 1).map
      (fun j => batchVar (colVals (List.map (fun a => a) [[[1]]]).flatten j)) = [0] := by
    norm_num [List.range_succ, colVals, batchVar, centeredSS, batchMean]
  rw [hA, hB]
  simp [scaleOf]

/-- Claim C8, amended: the final per-channel mean of the incremental update
equals the batch mean over all code values concatenated upfront, and the
per-channel scale equals the batch population standard deviation except that
an exactly-zero standard deviation is stored as 1 (sklearn's
degenerate-scale guard); the final statistics are independent of the order
in which the utterances are ingested. -/
theorem claim_C8_amended (C : ℕ) (bs bs2 : List QMat)
    (h : ∀ Y ∈ bs, Y ≠ [] ∧ ∀ r ∈ Y, r.length = C) (hne : bs ≠ [])
    (hperm : bs2.Perm bs) :
    (scalerState bs).meanAttr =
        .ok ((List.range C).map (fun j => batchMean (colVals bs.flatten j))) ∧
    (scalerState bs).scaleAttr =
        .ok (((List.range C).map (fun j => batchVar (colVals bs.flatten j))).map scaleOf) ∧
    (scalerState bs2).meanAttr = (scalerState bs).meanAttr ∧
    (scalerState bs2).scaleAttr = (scalerState bs).scaleAttr := by
  have hfit := scalerState_spec C bs hne h
  have h2ne : bs2 ≠ [] := by
    intro hnil
    apply hne
    have hlen := hperm.length_eq
    rw [hnil] at hlen
    exact List.length_eq_zero.mp hlen.symm
  have h2 : ∀ Y ∈ bs2, Y ≠ [] ∧ ∀ r ∈ Y, r.length = C :=
    fun Y hY => h Y (hperm.mem_iff.mp hY)
  have hfit2 := scalerState_spec C bs2 h2ne h2
  have hflat : bs2.flatten.Perm bs.flatten := perm_flatten hperm
  have hmeans : (List.range C).map (fun j => batchMean (colVals bs2.flatten j)) =
      (List.range C).map (fun j => batchMean (colVals bs.flatten j)) :=
    List.map_congr_left (fun j _ => batchMean_perm (colVals_perm hflat j))
  have hvars : (List.range C).map (fun j => batchVar (colVals bs2.flatten j)) =
      (List.range C).map (fun j => batchVar (colVals bs.flatten j)) :=
    List.map_congr_left (fun j _ => batchVar_perm (colVals_perm hflat j))
  refine ⟨meanAttr_of_fitted hfit, scaleAttr_of_fitted hfit, ?_, ?_⟩
  · rw [meanAttr_of_fitted hfit2, meanAttr_of_fitted hfit]
    exact congrArg Except.ok hmeans
  · rw [scaleAttr_of_fitted hfit2, scaleAttr_of_fitted hfit]
    exact congrArg Except.ok (congrArg (List.map scaleOf) hvars)

/-- Counterexample for claim C8 as stated: on the single-utterance dataset
`[[5], [5]]` (two samples of one constant channel) the incremental update
stores scale 1, while the batch population standard deviation of the
concatenated code values is 0 — so the stored scale does not match the batch
standard deviation. -/
theorem claim_C8_counterexample :
    (scalerState [[[5], [5]]]).scaleAttr = .ok [(1 : ℝ)] ∧
    Real.sqrt ((batchVar (colVals (List.flatten [[[5], [5]]]) 0) : ℚ) : ℝ) = 0 ∧
    (1 : ℝ) ≠ 0 := by
  refine ⟨?_, ?_, one_ne_zero⟩
  · show (StandardScaler.empty.fitBatch [[5], [5]]).scaleAttr = .ok [(1 : ℝ)]
    rw [fitBatch_none]
    unfold StandardScaler.scaleAttr
    have hv0 : (List.range ((([[5], [5]] : QMat).headD []).length)).map
        (fun j => mergeVar 0 0 0 (colVals [[5], [5]] j)) = [0] := by
      norm_num [List.range_succ, colVals, mergeVar, centeredSS, batchMean]
    rw [hv0]
    simp [scaleOf]
  · have hv : batchVar (colVals (List.flatten [[[5], [5]]]) 0) = 0 := by
      norm_num [colVals, batchVar, centeredSS, batchMean]
    rw [hv]
    simp [Real.sqrt_zero]

/-- Witness for the amended claim C8 at a concrete one-utterance dataset. -/
theorem claim_C8_witness :
    (scalerState [[[1], [3]]]).meanAttr =
        .ok ((List.range 1).map (fun j => batchMean (colVals (List.flatten [[[1], [3]]]) j))) ∧
    (scalerState [[[1], [3]]]).scaleAttr =
        .ok (((List.range 1).map
          (fun j => batchVar (colVals (List.flatten [[[1], [3]]]) j))).map scaleOf) ∧
    (scalerState [[[1], [3]]]).meanAttr = (scalerState [[[1], [3]]]).meanAttr ∧
    (scalerState [[[1], [3]]]).scaleAttr = (scalerState [[[1], [3]]]).scaleAttr :=
  claim_C8_amended 1 [[[1], [3]]] [[[1], [3]]] (by decide) (by decide) (List.Perm.refl _)
